import Mathlib

/-!
Verification of the proxy-checker probe engine (Go, package main).

Shallow embedding: pure Go functions become Lean functions over `String`,
`Nat` and `List`; Go errors become an explicit structure carrying the error
text together with the two dynamic-type facts the classifier inspects
(`net.OpError` with `Op == "dial"`, and net-timeout / deadline-exceeded).
Library calls that live outside this repository (url.Parse, net.ParseIP,
json.Unmarshal, the network itself) are passed in as oracle parameters, so
theorems quantify over every behaviour of those collaborators.
-/

namespace ProxyChecker

/-- Credential pair, Go struct `Auth`. -/
structure Auth where
  user : String
  pass : String
deriving DecidableEq, Repr

/-- Go `unicode.IsSpace` restricted to ASCII (all strings the checker
trims are ASCII). -/
def isSpaceChar (c : Char) : Bool :=
  c == ' ' || c == '\t' || c == '\n' || c == '\x0b' || c == '\x0c' || c == '\r'

/-- Go `strings.TrimSpace`: drop leading and trailing whitespace. -/
def strTrim (s : String) : String :=
  String.mk (((s.data.dropWhile isSpaceChar).reverse.dropWhile isSpaceChar).reverse)

/-- Go `strings.ToLower` (ASCII). -/
def strToLower (s : String) : String :=
  String.mk (s.data.map Char.toLower)

/-- Go `strings.HasPrefix s pre`. -/
def strStartsWith (s pre : String) : Bool :=
  List.isPrefixOf pre.data s.data

/-- Go `strings.Contains` on char lists: does `pat` occur contiguously? -/
def listContainsSub (pat : List Char) : List Char → Bool
  | [] => pat.isEmpty
  | b :: bs => List.isPrefixOf pat (b :: bs) || listContainsSub pat bs

/-- Go `strings.Contains s pat`. -/
def strContains (s pat : String) : Bool :=
  listContainsSub pat.data s.data

/-- A Go `error` value as seen by the classifier: its message plus the two
facts `classifyErr` extracts through `errors.As` / `errors.Is`
(`*net.OpError` with `Op == "dial"`, and timeout-ness). -/
structure GoErr where
  msg : String
  isOpDial : Bool := false
  isNetTimeout : Bool := false
deriving DecidableEq, Repr

/-- Go `isTimeoutErr`: `context.DeadlineExceeded` or `net.Error.Timeout()`. -/
def isTimeoutErr (e : GoErr) : Bool := e.isNetTimeout

/-- Go `isDialLikeErr`. -/
def isDialLikeErr (e : GoErr) : Bool :=
  e.isOpDial ||
    (let m := strToLower e.msg
     strContains m "connection refused" ||
     strContains m "no route to host" ||
     strContains m "network is unreachable" ||
     strContains m "connection reset" ||
     strContains m "broken pipe")

/-- Decimal value of a digit char. -/
def digitVal (c : Char) : Nat := c.toNat - 48

/-- Go `parseStatusFromText` over the char list: first run of three
consecutive digits, read as a number. -/
def parseStatusFromTextList : List Char → Option Nat
  | c1 :: c2 :: c3 :: rest =>
    if c1.isDigit && c2.isDigit && c3.isDigit then
      some (100 * digitVal c1 + 10 * digitVal c2 + digitVal c3)
    else
      parseStatusFromTextList (c2 :: c3 :: rest)
  | _ => none

/-- Go `parseStatusFromText`. -/
def parseStatusFromText (s : String) : Option Nat :=
  parseStatusFromTextList s.data

/-- Go `isAuthStatus`: 407 (proxy auth required) or 401 (unauthorized). -/
def isAuthStatus (code : Nat) : Bool := code == 407 || code == 401

/-- Go `isHTTPSClientGotHTTP`. -/
def isHTTPSClientGotHTTP (e : GoErr) : Bool :=
  strContains (strToLower e.msg) "server gave http response to https client"

/-- Go `isLikelyPlainHTTPProxy`: TLS-handshake failure signatures that mean
the peer spoke plaintext HTTP. -/
def isLikelyPlainHTTPProxy (e : GoErr) : Bool :=
  isHTTPSClientGotHTTP e ||
    (let m := strToLower e.msg
     strContains m "first record does not look like a tls handshake" ||
     strContains m "tls: handshake failure" ||
     strContains m "tls: internal error")

/-- Go `classifyErr`: map a transport error to a coarse failure kind.
Branch order mirrors the source exactly. -/
def classifyErr (e : GoErr) : String :=
  let msg := strToLower e.msg
  if isHTTPSClientGotHTTP e then "https_to_http"
  else if strContains msg "proxy connect failed" || strContains msg "connect failed" then
    match parseStatusFromText msg with
    | some code => if isAuthStatus code then "auth" else "connect_fail"
    | none => "connect_fail"
  else if strContains msg "preflight non-204" then
    match parseStatusFromText msg with
    | some code => if isAuthStatus code then "auth" else "non204"
    | none => "non204"
  else if strContains msg "proxy authentication" || strContains msg "407" then "auth"
  else if isTimeoutErr e then "timeout"
  else if strContains msg "tls" || strContains msg "handshake" then "tls"
  else if strContains msg "no such host" then "dns"
  else if isDialLikeErr e then
    if strContains msg "connection refused" then "refused"
    else if strContains msg "no route" || strContains msg "unreachable" then "unreachable"
    else if strContains msg "reset" then "reset"
    else "dial"
  else if strContains msg "ipinfo" || strContains msg "unmarshal" || strContains msg "json" then "ipinfo"
  else if strContains msg "eof" then "eof"
  else "other"

/-- The priority array inside Go `choosePrimaryReason` (13 entries; note the
source omits `https_to_http`). -/
def priorityList : List String :=
  ["auth", "ipinfo", "non204", "connect_fail", "tls", "timeout", "refused",
   "unreachable", "reset", "dial", "dns", "eof", "other"]

/-- The observed-reason multiset after Go trims each entry and drops the
empty ones (the `count` map keys). -/
def cleanedReasons (reasons : List String) : List String :=
  (reasons.map strTrim).filter (fun r => r ≠ "")

/-- Occurrence count of kind `p`, Go map `count[p]`. -/
def reasonCount (reasons : List String) (p : String) : Nat :=
  (cleanedReasons reasons).count p

/-- Go `choosePrimaryReason`: first priority-list entry with a positive
count; else classification of the last error; else "other". -/
def choosePrimaryReason (reasons : List String) (lastErr : Option GoErr) : String :=
  match priorityList.find? (fun p => decide (0 < reasonCount reasons p)) with
  | some p => p
  | none =>
    match lastErr with
    | some e => classifyErr e
    | none => "other"

/-- Go `guessProxyOrder`. The source receives `addr = "host:port"` and runs
`net.SplitHostPort`; the embedding receives the port component directly.
The source's split-error branch returns the same list as the default port
branch, so representing the address by its port loses nothing. -/
def guessProxyOrder (port : String) : List String :=
  match port with
  | "443" | "8443" | "9443" => ["https", "http", "socks5"]
  | "80" | "8080" | "3128" | "8000" | "8888" => ["http", "https", "socks5"]
  | "1080" => ["socks5", "http", "https"]
  | _ => ["https", "http", "socks5"]

/-- Go `guessProxyOrderWithScheme` (address again represented by its port). -/
def guessProxyOrderWithScheme (port scheme : String) : List String :=
  match strToLower (strTrim scheme) with
  | "http" => ["http", "https", "socks5"]
  | "https" => ["https", "http", "socks5"]
  | "socks5" | "s5" => ["socks5", "http", "https"]
  | _ => guessProxyOrder port

/-- IP-intel result, Go struct `IPInfo` (fields the claims use). -/
structure IPInfo where
  isp : String := ""
  ipType : String := ""
  country : String := ""
deriving DecidableEq, Repr

/-- One probe attempt's result as the worker sees it: `Result.Success` with
the intel info, or `Result.Err`. -/
inductive ProbeRes where
  | ok (info : IPInfo)
  | fail (e : GoErr)
deriving DecidableEq, Repr

/-- A normalized job (Go struct `Job`); `ProxyAddr = "host:port"` is stored
split into host and port. -/
structure Job where
  host : String
  port : String
  schemeHint : String
  inlineAuth : Option Auth
deriving DecidableEq, Repr

/-- The effective credential list built at the top of Go `worker`: the empty
credential, then either the non-empty inline credential or the non-empty
entries of the default list. -/
def buildAuthList (inline : Option Auth) (defaults : List Auth) : List Auth :=
  let base := [Auth.mk "" ""]
  match inline with
  | some a => if a.user != "" || a.pass != "" then base ++ [a] else base
  | none => base ++ defaults.filter (fun a => !(a.user == "" && a.pass == ""))

/-- The protocol list selected by Go `worker`'s mode switch. -/
def workerTypes (mode : String) (hint port : String) : List String :=
  match mode with
  | "http" => ["http"]
  | "https" => ["https"]
  | "socks5" | "s5" => ["socks5"]
  | _ => guessProxyOrderWithScheme port hint

/-- The fatal short-circuit kinds checked in Go `worker`. -/
def fatalKind (c : String) : Bool :=
  c == "reset" || c == "unreachable" || c == "refused"

/-- Accumulated state of the per-endpoint loops in Go `worker`:
`successes`, `reasons`, `lastErr`, plus the trace of attempted
(protocol, credential) pairs in order (for stating the short-circuit). -/
structure WorkerSt where
  successes : List (String × Auth)
  reasons : List String
  lastErr : Option GoErr
  trace : List (String × Auth)
deriving Repr

/-- Inner credential loop of Go `worker` for one protocol `tp`. Returns the
updated state, `okThisType`, and `ipUnreachable`. -/
def runAuthLoop (probe : String → Auth → ProbeRes) (tp : String) :
    List Auth → WorkerSt → WorkerSt × Bool × Bool
  | [], st => (st, false, false)
  | a :: rest, st =>
    let st1 := { st with trace := st.trace ++ [(tp, a)] }
    match probe tp a with
    | .ok _ => ({ st1 with successes := st1.successes ++ [(tp, a)] }, true, false)
    | .fail e =>
      let c := classifyErr e
      let st2 := { st1 with reasons := st1.reasons ++ [c], lastErr := some e }
      if fatalKind c then (st2, false, true)
      else runAuthLoop probe tp rest st2

/-- Outer protocol loop of Go `worker` (`ipUnreachable` is checked at the
top of each iteration; `auto` mode breaks after a successful protocol). -/
def runProtoLoop (probe : String → Auth → ProbeRes) (auths : List Auth)
    (mode : String) : List String → Bool → WorkerSt → WorkerSt
  | [], _, st => st
  | tp :: rest, unreach, st =>
    if unreach then st
    else
      match runAuthLoop probe tp auths st with
      | (st1, okThisType, unr) =>
        if mode == "auto" && okThisType then st1
        else runProtoLoop probe auths mode rest unr st1

/-- One endpoint processed by Go `worker`: credential list and protocol
list built from the job, then the nested attempt loops. `probe` is the
oracle for `testOne` on this endpoint. -/
def runJob (probe : String → Auth → ProbeRes) (defaults : List Auth)
    (mode : String) (job : Job) : WorkerSt :=
  let m := strToLower mode
  runProtoLoop probe (buildAuthList job.inlineAuth defaults) m
    (workerTypes m job.schemeHint job.port) false ⟨[], [], none, []⟩

/-- `FailWhy` of the Outcome built at the bottom of Go `worker`. -/
def outcomeWhy (st : WorkerSt) : String :=
  if st.successes.isEmpty then choosePrimaryReason st.reasons st.lastErr else ""

/-- Whether an attempt in a trace fails with a short-circuit kind under a
given probe oracle. -/
def isFatalAttempt (probe : String → Auth → ProbeRes) (x : String × Auth) : Bool :=
  match probe x.1 x.2 with
  | .ok _ => false
  | .fail e => fatalKind (classifyErr e)

/-- Go `startDynamicLimiter`: `hardCap` (floored at 256). Arguments are the
positive worker count (the function returns early on `workers <= 0`). -/
def limiterHardCap (workers : Nat) : Nat :=
  if workers < 256 then 256 else workers

/-- Go `startDynamicLimiter`: `minLimit` — `max(128, workers/10)`, clamped
to `workers`, then floored at 64. -/
def limiterMinLimit (workers : Nat) : Nat :=
  let m := max 128 (workers / 10)
  let m1 := if m > workers then workers else m
  if m1 < 64 then 64 else m1

/-- Go `startDynamicLimiter`: `stepUp = max(8, workers/80)`. -/
def limiterStepUp (workers : Nat) : Nat := max 8 (workers / 80)

/-- Go struct `IPAPIASNResp` (fields the client reads). -/
structure IPAPIASNResp where
  name : String := ""
  type : String := ""
deriving DecidableEq, Repr

/-- Go struct `IPAPICompanyResp` (fields the client reads). -/
structure IPAPICompanyResp where
  name : String := ""
  type : String := ""
deriving DecidableEq, Repr

/-- Go struct `IPAPIDataResp` (fields the client reads). -/
structure IPAPIDataResp where
  country : String := ""
  asn : IPAPIASNResp := {}
  company : IPAPICompanyResp := {}
deriving DecidableEq, Repr

/-- Go struct `IPAPIResp`. -/
structure IPAPIResp where
  ipapi : IPAPIDataResp := {}
  code : Int := 0
deriving DecidableEq, Repr

/-- `io.LimitReader(body, 32*1024)` followed by `ReadAll`: the first 32 KiB
of the body (bytes approximated by chars; the intel body is ASCII JSON). -/
def limitBody (s : String) : String :=
  String.mk (s.data.take 32768)

/-- Go `fetchIPInfoWithClient`, with the transport and `json.Unmarshal`
abstracted: `doResp` is the outcome of `client.Do` (status and raw body, or
a transport error), `unmarshal` models `json.Unmarshal` into `IPAPIResp`
(the error side carries the json error text). Every branch reproduces the
source's error message so `classifyErr` sees the real text. -/
def fetchIPInfoWithClient (doResp : Except GoErr (Nat × String))
    (unmarshal : String → Except String IPAPIResp) : Except GoErr IPInfo :=
  match doResp with
  | .error e => .error ⟨"ipinfo request failed: " ++ e.msg, false, false⟩
  | .ok (status, rawBody) =>
    if status ≠ 200 then
      .error ⟨"ipinfo status=" ++ toString status, false, false⟩
    else
      let body := limitBody rawBody
      let bodyStr := strTrim body
      if bodyStr.data.head? ≠ some '\x7b' then
        .error ⟨"ipinfo invalid response: not JSON", false, false⟩
      else
        match unmarshal body with
        | .error jsonErr =>
          .error ⟨"ipinfo json parse failed: " ++ jsonErr, false, false⟩
        | .ok data =>
          if data.code ≠ 200 then
            .error ⟨"ipinfo api error: code=" ++ toString data.code, false, false⟩
          else
            let ipData := data.ipapi
            let isp :=
              if ipData.company.name ≠ "" then strTrim ipData.company.name
              else if ipData.asn.name ≠ "" then strTrim ipData.asn.name
              else ""
            let ipType :=
              if ipData.asn.type ≠ "" then strTrim ipData.asn.type
              else if ipData.company.type ≠ "" then strTrim ipData.company.type
              else ""
            if ipData.country = "" then
              .error ⟨"ipinfo invalid response: missing country", false, false⟩
            else
              .ok ⟨isp, ipType, strTrim ipData.country⟩

/-- Go `testHTTPSProxy` with the two transports abstracted per
(endpoint, credential): `httpsAttempt` is the TLS-to-proxy probe up to and
including `fetchIPInfoWithClient`; `httpProbe` is `testHTTPProxy` (which
contains no fallback of its own). On a plaintext-HTTP signature the source
falls back once to the HTTP prober on the same address and credential and
returns that result. -/
def testHTTPSProxy (httpsAttempt httpProbe : String → Auth → Except GoErr IPInfo)
    (proxyAddr : String) (a : Auth) : Except GoErr IPInfo :=
  match httpsAttempt proxyAddr a with
  | .ok info => .ok info
  | .error e =>
    if isLikelyPlainHTTPProxy e then httpProbe proxyAddr a
    else .error e

/-- The user-info of a parsed URL (Go `u.User`): username and password. -/
structure URLUserInfo where
  user : String
  pass : String
deriving DecidableEq, Repr

/-- The parts of a parsed URL the parser reads: `u.Scheme`, `u.Hostname()`,
`u.Port()`, `u.User`. -/
structure URLParts where
  scheme : String
  host : String
  port : String
  userinfo : Option URLUserInfo
deriving DecidableEq, Repr

/-- Oracles for the standard-library calls inside `parseProxyLine`:
`urlParse` models `url.Parse` (`none` when it errors or `u.Host` is empty is
handled by the caller through the `host` field), `parseIP` models
`net.ParseIP` (returning `ip.String()`), `splitHostPort` models
`net.SplitHostPort`. -/
structure ParseOracles where
  urlParse : String → Option URLParts
  parseIP : String → Option String
  splitHostPort : String → Option (String × String)

/-- Go `defaultPortForScheme` (closure inside `parseProxyLine`). -/
def defaultPortForScheme (scheme : String) : String :=
  match strToLower (strTrim scheme) with
  | "http" => "80"
  | "https" => "443"
  | "socks5" | "s5" => "1080"
  | _ => ""

/-- Go `net.JoinHostPort`: bracket the host when it contains a colon. -/
def joinHostPort (host port : String) : String :=
  if strContains host ":" then "[" ++ host ++ "]:" ++ port else host ++ ":" ++ port

/-- Go `strings.Trim(s, cutset)`: drop leading and trailing cutset chars. -/
def trimCharSet (cut : List Char) (s : String) : String :=
  String.mk (((s.data.dropWhile (cut.contains ·)).reverse.dropWhile (cut.contains ·)).reverse)

/-- The inline-credential guard shared by both URL branches of
`parseProxyLine`: a credential is produced only when user or pass is
non-empty. -/
def authFromUserinfo (ui : Option URLUserInfo) : Option Auth :=
  match ui with
  | some u => if u.user != "" || u.pass != "" then some ⟨u.user, u.pass⟩ else none
  | none => none

/-- Port resolution inside the URL branches of `parseProxyLine`: explicit
port, else the default port (possibly filled from the scheme), else fail. -/
def resolvePort (uPort dp schemeDefault : String) : Option String :=
  if uPort ≠ "" then some uPort
  else
    let dp1 := if dp = "" then schemeDefault else dp
    if dp1 = "" then none else some dp1

/-- Branches 3-5 of Go `parseProxyLine` (no user-info possible): bare IP,
`host:port` / `[ipv6]:port`, bare host. -/
def parseTail (O : ParseOracles) (line dp : String) :
    Except String (String × String × Option Auth) :=
  match O.parseIP line with
  | some _ =>
    if dp = "" then .error "pure ip missing port; use -p"
    else if strContains line ":" then .ok ("[" ++ line ++ "]:" ++ dp, "", none)
    else .ok (line ++ ":" ++ dp, "", none)
  | none =>
    if strContains line ":" then
      match O.splitHostPort line with
      | some (h, p) => .ok (joinHostPort h p, "", none)
      | none =>
        match O.parseIP (trimCharSet ['[', ']'] line) with
        | some ipStr =>
          if dp = "" then .error "missing port; use -p"
          else .ok (joinHostPort ipStr dp, "", none)
        | none =>
          if dp ≠ "" then .ok (joinHostPort line dp, "", none)
          else .error "missing port; use -p"
    else
      if dp = "" then .error "host missing port; use -p"
      else .ok (joinHostPort line dp, "", none)

/-- Branch 2 of Go `parseProxyLine`: `user:pass@host[:port]` without a
scheme, parsed as `http://` + line; falls through to `parseTail`. -/
def parseAtBranch (O : ParseOracles) (line dp : String) :
    Except String (String × String × Option Auth) :=
  if strContains line "@" && !strContains line "://" then
    match O.urlParse ("http://" ++ line) with
    | some u =>
      if u.host ≠ "" then
        match resolvePort u.port dp "" with
        | some port => .ok (joinHostPort u.host port, "", authFromUserinfo u.userinfo)
        | none => .error "missing port; use -p"
      else parseTail O line dp
    | none => parseTail O line dp
  else parseTail O line dp

/-- Go `parseProxyLine`: returns `(addr, schemeHint, inlineAuth)` or the
bad-line error. -/
def parseProxyLine (O : ParseOracles) (line0 dp : String) :
    Except String (String × String × Option Auth) :=
  let line := strTrim line0
  if line = "" then .error "empty line"
  else if strContains line "://" then
    match O.urlParse line with
    | some u =>
      if u.host ≠ "" then
        match resolvePort u.port dp (defaultPortForScheme u.scheme) with
        | some port =>
          .ok (joinHostPort u.host port, strToLower (strTrim u.scheme), authFromUserinfo u.userinfo)
        | none => .error "missing port; use -p"
      else parseAtBranch O line dp
    | none => parseAtBranch O line dp
  else parseAtBranch O line dp

/-- The monotonic counters of `main` whose terminal values the invariants
speak about. Increments are atomic adds; the terminal value is the
order-independent sum of all increments, so the sequential fold below is a
faithful model of the terminated run. -/
structure Counters where
  done : Nat
  okIP : Nat
  okLine : Nat
  fail : Nat
  skip : Nat
deriving DecidableEq, Repr

/-- The writer goroutine's handling of one Outcome: success lines bump
`okIP`/`okLine`, empty-success outcomes bump `fail`; `done` is bumped
exactly once either way. -/
def processOutcome (c : Counters) (st : WorkerSt) : Counters :=
  if st.successes.isEmpty then
    { c with fail := c.fail + 1, done := c.done + 1 }
  else
    { c with okIP := c.okIP + 1, okLine := c.okLine + st.successes.length,
             done := c.done + 1 }

/-- The dispatcher's handling of one input line, composed with the worker
and writer for the job it dispatches. `lineToJob` models
`parseProxyLine` plus Job construction (bad line on the error side),
`cdnMatch` models the CDN filter (`none` when the filter is absent or the
host is not an IP), and `probe` gives each job's per-attempt outcomes. -/
def processLine (lineToJob : String → Except String Job)
    (cdnMatch : Job → Option String)
    (probe : Job → String → Auth → ProbeRes)
    (defaults : List Auth) (mode : String) (c : Counters) (line : String) :
    Counters :=
  let raw := strTrim line
  if raw == "" || strStartsWith raw "#" then c
  else
    match lineToJob raw with
    | .error _ => { c with skip := c.skip + 1, done := c.done + 1 }
    | .ok job =>
      match cdnMatch job with
      | some _ => { c with skip := c.skip + 1, done := c.done + 1 }
      | none => processOutcome c (runJob (probe job) defaults mode job)

/-- A whole terminated run over the input lines, starting from zeroed
counters. -/
def runAll (lineToJob : String → Except String Job)
    (cdnMatch : Job → Option String)
    (probe : Job → String → Auth → ProbeRes)
    (defaults : List Auth) (mode : String) (lines : List String) : Counters :=
  lines.foldl (processLine lineToJob cdnMatch probe defaults mode) ⟨0, 0, 0, 0, 0⟩

/-! Spec-side definitions: these follow the specification's words, to be
compared against the source-derived definitions above. -/

/-- Spec §3 failure-kind priority order as claim C1 cites it (14 kinds,
with `https_to_http` between `eof` and `other`). -/
def specPriorityC1 : List String :=
  ["auth", "ipinfo", "non204", "connect_fail", "tls", "timeout", "refused",
   "unreachable", "reset", "dial", "dns", "eof", "https_to_http", "other"]

/-- Claim C1's primary-reason rule: the highest-priority kind present in
the observed multiset per the §3 order; if no kind was observed, the
classification of the last underlying error, else `other`. -/
def specChoosePrimaryC1 (reasons : List String) (lastErr : Option GoErr) : String :=
  if reasons.isEmpty then
    match lastErr with
    | some e => classifyErr e
    | none => "other"
  else
    match specPriorityC1.find? (fun p => decide (p ∈ reasons)) with
    | some p => p
    | none => "other"

/-- The primary-reason rule as the code actually implements it (amended
claim C1): the first of the source's 13 priority kinds present in the
cleaned multiset; when none of those 13 is present — even if other kinds
such as `https_to_http` were observed — the classification of the last
underlying error, else `other`. -/
def amendedChoosePrimaryC1 (reasons : List String) (lastErr : Option GoErr) : String :=
  match priorityList.find? (fun p => decide (p ∈ cleanedReasons reasons)) with
  | some p => p
  | none =>
    match lastErr with
    | some e => classifyErr e
    | none => "other"

/-- Claim C2's derived admission bounds, from the spec's formulas. -/
def specLimiterBoundsC2 (workers : Nat) : Prop :=
  limiterHardCap workers = workers ∧
  limiterMinLimit workers = max 64 (workers / 10) ∧
  limiterMinLimit workers ≤ limiterHardCap workers ∧
  limiterStepUp workers = max 8 (workers / 80)

/-- Claim C4's effective credential list: empty first; `[empty, inline]`
when the job carries a non-empty inline credential; otherwise the empty
credential followed by the non-empty defaults in order. -/
def specAuthListC4 (inline : Option Auth) (defaults : List Auth) : List Auth :=
  match inline with
  | some a =>
    if a.user != "" || a.pass != "" then [⟨"", ""⟩, a]
    else ⟨"", ""⟩ :: defaults.filter (fun x => !(x.user == "" && x.pass == ""))
  | none => ⟨"", ""⟩ :: defaults.filter (fun x => !(x.user == "" && x.pass == ""))

/-- Amended claim C4: a present-but-empty inline credential suppresses the
default list, yielding `[empty]` alone. -/
def amendedAuthListC4 (inline : Option Auth) (defaults : List Auth) : List Auth :=
  match inline with
  | some a => if a.user != "" || a.pass != "" then [⟨"", ""⟩, a] else [⟨"", ""⟩]
  | none => ⟨"", ""⟩ :: defaults.filter (fun x => !(x.user == "" && x.pass == ""))

/-- Claim C5's protocol-order table over `(scheme_hint, port)`. -/
def specProtocolOrderC5 (schemeHint port : String) : List String :=
  match schemeHint with
  | "http" => ["http", "https", "socks5"]
  | "https" => ["https", "http", "socks5"]
  | "socks5" | "s5" => ["socks5", "http", "https"]
  | _ =>
    match port with
    | "443" | "8443" | "9443" => ["https", "http", "socks5"]
    | "80" | "8080" | "3128" | "8000" | "8888" => ["http", "https", "socks5"]
    | "1080" => ["socks5", "http", "https"]
    | _ => ["https", "http", "socks5"]

/-! Concrete fixtures used by witness theorems: a plaintext-HTTP handshake
error, a connection-refused error, and small constant oracles. -/

/-- A TLS error showing the peer spoke plaintext HTTP. -/
def errPlainHTTP : GoErr := ⟨"server gave http response to https client", false, false⟩

/-- A dial error: connection refused. -/
def errRefused : GoErr := ⟨"connection refused", true, false⟩

/-- A probe oracle on which every attempt is refused (spec scenario S4). -/
def cProbeRefused : String → Auth → ProbeRes := fun _ _ => .fail errRefused

/-- Endpoint of spec scenario S4. -/
def cJobS4 : Job := ⟨"198.51.100.5", "9999", "", none⟩

/-- A dispatcher oracle that classifies every line as bad. -/
def cLineToJobBad : String → Except String Job := fun _ => .error "bad_line"

/-- A dispatcher oracle that parses every line to the S4 endpoint. -/
def cLineToJobConst : String → Except String Job := fun _ => .ok cJobS4

/-- A CDN oracle that never matches. -/
def cCdnNone : Job → Option String := fun _ => none

/-- A per-job probe oracle on which every attempt is refused. -/
def cProbeJobRefused : Job → String → Auth → ProbeRes := fun _ _ _ => .fail errRefused

/-- An HTTPS-attempt oracle failing with the plaintext-HTTP signature. -/
def cHttpsPlainFail : String → Auth → Except GoErr IPInfo := fun _ _ => .error errPlainHTTP

/-- An HTTP-probe oracle failing with connection refused. -/
def cHttpRefusedFail : String → Auth → Except GoErr IPInfo := fun _ _ => .error errRefused

/-- An HTTP-probe oracle that succeeds with fixed intel data. -/
def cHttpOk : String → Auth → Except GoErr IPInfo := fun _ _ => .ok ⟨"ExampleCorp", "isp", "US"⟩

/-- A concrete intel response: US country, ExampleNet ASN, ExampleCorp
company, code 200 (spec scenario S1). -/
def cRespOK : IPAPIResp := ⟨⟨"US", ⟨"ExampleNet", "isp"⟩, ⟨"ExampleCorp", "business"⟩⟩, 200⟩

/-- An unmarshal oracle that always parses to `cRespOK`. -/
def cUnmarshalOK : String → Except String IPAPIResp := fun _ => .ok cRespOK

/-- A url.Parse oracle knowing exactly the line `http://:@host:8080`, whose
user-info has empty user and empty password. -/
def cParseOracle : ParseOracles where
  urlParse := fun s =>
    if s = "http://:@host:8080" then some ⟨"http", "host", "8080", some ⟨"", ""⟩⟩ else none
  parseIP := fun _ => none
  splitHostPort := fun _ => none

/-- No attempt in the trace segment fails with a short-circuit kind. -/
def noFatal (probe : String → Auth → ProbeRes) (l : List (String × Auth)) : Prop :=
  ∀ y ∈ l, isFatalAttempt probe y = false

/-- Every attempt except possibly the final one is non-fatal: a fatal
attempt can only sit at the very end of the trace. -/
def goodTrace (probe : String → Auth → ProbeRes) (l : List (String × Auth)) : Prop :=
  ∀ i, (h : i + 1 < l.length) → isFatalAttempt probe (l.get ⟨i, by omega⟩) = false

/-! Theorems. -/

/-- A list whose entries are already trimmed and non-empty is unchanged by
the cleaning step of `choosePrimaryReason`. -/
theorem cleanedReasons_of_clean {l : List String}
    (h : ∀ r ∈ l, strTrim r = r ∧ r ≠ "") : cleanedReasons l = l := by
  induction l with
  | nil => rfl
  | cons a t ih =>
    have ha := h a (List.mem_cons_self a t)
    have ht : ∀ r ∈ t, strTrim r = r ∧ r ≠ "" :=
      fun r hr => h r (List.mem_cons_of_mem a hr)
    unfold cleanedReasons at ih ⊢
    simp only [List.map_cons, List.filter_cons, ha.1, ha.2, ih ht]
    simp [ha.2]

/-- Generic helper: `find?` returns the element of minimal index among
those satisfying the predicate. -/
theorem find?_eq_of_min {α : Type} [DecidableEq α] {l : List α} {p : α → Bool} {k : α}
    (hk : k ∈ l) (hpk : p k = true)
    (hmin : ∀ x ∈ l, p x = true → l.indexOf k ≤ l.indexOf x) :
    l.find? p = some k := by
  induction l with
  | nil => cases hk
  | cons a t ih =>
    by_cases hpa : p a = true
    · have hka : k = a := by
        by_contra hne
        have h0 := hmin a (List.mem_cons_self a t) hpa
        rw [List.indexOf_cons_self] at h0
        rw [List.indexOf_cons_ne t (fun h => hne h.symm)] at h0
        omega
      subst hka
      exact List.find?_cons_of_pos t hpk
    · have hne : k ≠ a := fun he => hpa (he ▸ hpk)
      have hkt : k ∈ t := by
        rcases List.mem_cons.mp hk with h | h
        · exact absurd h hne
        · exact h
      have hmin1 : ∀ x ∈ t, p x = true → t.indexOf k ≤ t.indexOf x := by
        intro x hx hpx
        have hxa : x ≠ a := fun he => hpa (he ▸ hpx)
        have hh := hmin x (List.mem_cons_of_mem a hx) hpx
        rw [List.indexOf_cons_ne t (fun h => hne h.symm),
            List.indexOf_cons_ne t (fun h => hxa h.symm)] at hh
        omega
      rw [List.find?_cons_of_neg t hpa]
      exact ih hkt hmin1

/-- When every observed reason is a clean token and `k` is an observed
priority kind of minimal priority index, the code picks `k`. -/
theorem choosePrimary_min {reasons : List String} {lastErr : Option GoErr} {k : String}
    (hclean : ∀ r ∈ reasons, strTrim r = r ∧ r ≠ "")
    (hkp : k ∈ priorityList) (hkr : k ∈ reasons)
    (hmin : ∀ r ∈ reasons, priorityList.indexOf k ≤ priorityList.indexOf r) :
    choosePrimaryReason reasons lastErr = k := by
  have hcl : cleanedReasons reasons = reasons := cleanedReasons_of_clean hclean
  unfold choosePrimaryReason
  have hfind : priorityList.find? (fun p => decide (0 < reasonCount reasons p)) = some k := by
    apply find?_eq_of_min hkp
    · have : 0 < reasonCount reasons k := by
        unfold reasonCount
        rw [hcl]
        exact List.count_pos_iff.mpr hkr
      simpa using this
    · intro x hx hpx
      apply hmin
      have hcount : 0 < reasonCount reasons x := by simpa using hpx
      unfold reasonCount at hcount
      rw [hcl] at hcount
      exact List.count_pos_iff.mp hcount
  rw [hfind]

/-- Claim C1, counterexample: the code's priority array omits
`https_to_http`, so for the observed multiset {https_to_http, other} the
code returns `other` while the claimed §3 order picks `https_to_http`. -/
theorem C1_counterexample :
    choosePrimaryReason ["https_to_http", "other"] (some errPlainHTTP) = "other" ∧
    specChoosePrimaryC1 ["https_to_http", "other"] (some errPlainHTTP) = "https_to_http" ∧
    ("other" : String) ≠ "https_to_http" := by
  refine ⟨rfl, rfl, by decide⟩

/-- Claim C1 (amended): the primary failure kind is the highest-priority
kind present in the cleaned multiset according to the code's 13-entry
order (which omits `https_to_http`); when none of those 13 kinds was
observed, it is the classification of the last underlying error, else
`other`. -/
theorem C1_primary_reason (reasons : List String) (lastErr : Option GoErr) :
    choosePrimaryReason reasons lastErr = amendedChoosePrimaryC1 reasons lastErr := by
  unfold choosePrimaryReason amendedChoosePrimaryC1
  have hpred : (fun p => decide (0 < reasonCount reasons p))
      = fun p => decide (p ∈ cleanedReasons reasons) := by
    funext p
    apply decide_eq_decide.mpr
    unfold reasonCount
    exact List.count_pos_iff
  rw [hpred]

/-- Claim C2, counterexample: at configured concurrency 1000 the code's
`minLimit` is `max(128, 1000/10) = 128`, not the claimed
`max(64, 1000/10) = 100`, so the claimed bound package fails. -/
theorem C2_counterexample : ¬ specLimiterBoundsC2 1000 := by
  intro h
  have h2 := h.2.1
  have : limiterMinLimit 1000 = 128 := by decide
  rw [this] at h2
  exact absurd h2 (by decide)

/-- Claim C2 (amended): for every positive worker count, the code derives
`hard_cap = max(256, workers)`, `min_limit = max(64, min(workers,
max(128, workers/10)))`, `step_up = max(8, workers/80)`; `min_limit` never
exceeds `hard_cap`, and `hard_cap` equals the configured concurrency
whenever it is at least 256 (which automatic capping guarantees). -/
theorem C2_limiter_bounds (w : Nat) (_hw : 1 ≤ w) :
    limiterHardCap w = max 256 w ∧
    limiterMinLimit w = max 64 (min w (max 128 (w / 10))) ∧
    limiterStepUp w = max 8 (w / 80) ∧
    limiterMinLimit w ≤ limiterHardCap w ∧
    (256 ≤ w → limiterHardCap w = w) := by
  unfold limiterHardCap limiterMinLimit limiterStepUp
  refine ⟨?_, ?_, rfl, ?_, ?_⟩ <;> dsimp only <;> split_ifs <;> omega

/-- Witness for C2_limiter_bounds at workers = 1000. -/
theorem C2_limiter_bounds_witness :
    1 ≤ 1000 ∧
      (limiterHardCap 1000 = max 256 1000 ∧
       limiterMinLimit 1000 = max 64 (min 1000 (max 128 (1000 / 10))) ∧
       limiterStepUp 1000 = max 8 (1000 / 80) ∧
       limiterMinLimit 1000 ≤ limiterHardCap 1000 ∧
       (256 ≤ 1000 → limiterHardCap 1000 = 1000)) :=
  ⟨by decide, C2_limiter_bounds 1000 (by decide)⟩

/-- Claim C4, counterexample: a Job carrying a present-but-empty inline
credential gets `[empty]` from the code, while the claim's `otherwise`
branch demands the non-empty defaults be appended. -/
theorem C4_counterexample :
    buildAuthList (some ⟨"", ""⟩) [⟨"u", "p"⟩] = [⟨"", ""⟩] ∧
    specAuthListC4 (some ⟨"", ""⟩) [⟨"u", "p"⟩] = [⟨"", ""⟩, ⟨"u", "p"⟩] ∧
    buildAuthList (some ⟨"", ""⟩) [⟨"u", "p"⟩] ≠
      specAuthListC4 (some ⟨"", ""⟩) [⟨"u", "p"⟩] := by
  refine ⟨rfl, rfl, ?_⟩
  decide

/-- Claim C4 (amended): the effective credential list is the empty
credential first; `[empty, inline]` when the inline credential is present
and non-empty; `[empty]` alone when it is present but empty; otherwise
`[empty]` followed by the non-empty default entries in order. -/
theorem C4_auth_list (inline : Option Auth) (defaults : List Auth) :
    buildAuthList inline defaults = amendedAuthListC4 inline defaults := by
  cases inline with
  | none => rfl
  | some a =>
    unfold buildAuthList amendedAuthListC4
    dsimp only
    split_ifs <;> rfl

/-- Claim C5: the protocol-order derivation is a pure function of
(scheme_hint, port) returning a permutation of {http, https, socks5}, and
on normalized scheme hints (all hints the parser produces are trimmed and
lowercased) it equals the claimed table. -/
theorem C5_protocol_order (scheme port : String) :
    (guessProxyOrderWithScheme port scheme).Perm ["http", "https", "socks5"] ∧
    (strToLower (strTrim scheme) = scheme →
      guessProxyOrderWithScheme port scheme = specProtocolOrderC5 scheme port) := by
  constructor
  · unfold guessProxyOrderWithScheme guessProxyOrder
    split <;> first | decide | (split <;> decide)
  · intro h
    unfold guessProxyOrderWithScheme specProtocolOrderC5 guessProxyOrder
    rw [h]

/-- Witness for C5_protocol_order at scheme hint `socks5`, port `443`. -/
theorem C5_protocol_order_witness :
    (guessProxyOrderWithScheme "443" "socks5").Perm ["http", "https", "socks5"] ∧
    guessProxyOrderWithScheme "443" "socks5" = specProtocolOrderC5 "socks5" "443" :=
  ⟨(C5_protocol_order "socks5" "443").1,
   (C5_protocol_order "socks5" "443").2 (by decide)⟩

/-- Claim C8, counterexample: when the TLS attempt fails with the
plaintext-HTTP signature and the HTTP retry fails with connection refused,
the prober returns the retry's error unchanged, so the endpoint's failure
classifies as `refused` — the original failure is never classified as
`https_to_http`. -/
theorem C8_counterexample :
    testHTTPSProxy cHttpsPlainFail cHttpRefusedFail "203.0.113.9:443" ⟨"", ""⟩ =
      .error errRefused ∧
    isLikelyPlainHTTPProxy errPlainHTTP = true ∧
    classifyErr errRefused = "refused" ∧
    ("refused" : String) ≠ "https_to_http" := by
  refine ⟨rfl, rfl, rfl, by decide⟩

/-- Claim C8 (amended): if the HTTPS-tunnel probe fails with an error
matching the source's plaintext-HTTP signatures, the prober retries exactly
once as an HTTP prober against the same endpoint and credential, and the
retry's result — including, on a failed retry, the retry's error and hence
its classification — is what the probe returns; the original failure is
discarded rather than classified as `https_to_http`. -/
theorem C8_https_fallback (httpsAttempt httpProbe : String → Auth → Except GoErr IPInfo)
    (addr : String) (a : Auth) (e : GoErr)
    (hfail : httpsAttempt addr a = .error e)
    (hsig : isLikelyPlainHTTPProxy e = true) :
    testHTTPSProxy httpsAttempt httpProbe addr a = httpProbe addr a := by
  unfold testHTTPSProxy
  rw [hfail]
  simp [hsig]

/-- Witness for C8_https_fallback with a plaintext-HTTP failure and a
successful HTTP retry. -/
theorem C8_https_fallback_witness :
    cHttpsPlainFail "203.0.113.9:443" ⟨"", ""⟩ = .error errPlainHTTP ∧
    isLikelyPlainHTTPProxy errPlainHTTP = true ∧
    testHTTPSProxy cHttpsPlainFail cHttpOk "203.0.113.9:443" ⟨"", ""⟩ =
      cHttpOk "203.0.113.9:443" ⟨"", ""⟩ :=
  ⟨rfl, by decide,
   C8_https_fallback cHttpsPlainFail cHttpOk "203.0.113.9:443" ⟨"", ""⟩ errPlainHTTP
     rfl (by decide)⟩

/-- An inline credential built from URL user-info is always non-empty. -/
theorem authFromUserinfo_nonempty {ui : Option URLUserInfo} {a : Auth}
    (h : authFromUserinfo ui = some a) : a.user ≠ "" ∨ a.pass ≠ "" := by
  unfold authFromUserinfo at h
  repeat' split at h
  all_goals injection h
  all_goals rename_i h1
  all_goals subst h1
  all_goals rename_i hc
  all_goals simp only [Bool.or_eq_true, bne_iff_ne, ne_eq] at hc
  all_goals exact hc

/-- Branches 3-5 of the parser never produce an inline credential. -/
theorem parseTail_no_auth {O : ParseOracles} {line dp addr hint : String}
    {ia : Option Auth} (h : parseTail O line dp = .ok (addr, hint, ia)) :
    ia = none := by
  unfold parseTail at h
  repeat' split at h
  all_goals simp_all

/-- Every inline credential the parser returns comes through
`authFromUserinfo`. -/
theorem parseAtBranch_auth {O : ParseOracles} {line dp addr hint : String}
    {ia : Option Auth} (h : parseAtBranch O line dp = .ok (addr, hint, ia)) :
    ia = none ∨ ∃ ui, ia = authFromUserinfo ui := by
  unfold parseAtBranch at h
  repeat' split at h
  all_goals first
    | (left; exact parseTail_no_auth h)
    | (simp only [Except.ok.injEq, Prod.mk.injEq] at h
       rcases h with ⟨h1, h2, h3⟩
       subst h3
       exact Or.inr ⟨_, rfl⟩)
    | cases h

/-- Claim C10: the parser returns a non-nil inline credential only when at
least one of user and pass is non-empty; when it returns none — as for a
line like `http://:@host:port` with empty user and empty password — the
worker's effective credential list is the empty credential followed by the
non-empty entries of the default list. -/
theorem C10_inline_credential (O : ParseOracles) (line dp addr hint : String)
    (ia : Option Auth)
    (h : parseProxyLine O line dp = .ok (addr, hint, ia)) :
    (∀ a, ia = some a → (a.user ≠ "" ∨ a.pass ≠ "")) ∧
    (ia = none → ∀ defaults, buildAuthList none defaults =
        ⟨"", ""⟩ :: defaults.filter (fun x => !(x.user == "" && x.pass == ""))) := by
  constructor
  · intro a ha
    have hsrc : ia = none ∨ ∃ ui, ia = authFromUserinfo ui := by
      unfold parseProxyLine at h
      dsimp only at h
      repeat' split at h
      all_goals first
        | exact parseAtBranch_auth h
        | (simp only [Except.ok.injEq, Prod.mk.injEq] at h
           rcases h with ⟨h1, h2, h3⟩
           subst h3
           exact Or.inr ⟨_, rfl⟩)
        | cases h
    rcases hsrc with hn | ⟨ui, hui⟩
    · rw [hn] at ha; cases ha
    · rw [hui] at ha
      exact authFromUserinfo_nonempty ha
  · intro _ defaults
    rfl

/-- Witness for C10_inline_credential on the line `http://:@host:8080`
under an oracle whose user-info has empty user and empty password. -/
theorem C10_inline_credential_witness :
    buildAuthList none [⟨"u", "p"⟩] = [⟨"", ""⟩, ⟨"u", "p"⟩] :=
  ((C10_inline_credential cParseOracle "http://:@host:8080" "" "host:8080" "http" none
      rfl).2 rfl [⟨"u", "p"⟩]).trans (by decide)

/-- Helper: success condition of the IP-intel client. -/
theorem fetchIPInfo_ok_iff (status : Nat) (rawBody : String)
    (unmarshal : String → Except String IPAPIResp) :
    (∃ info, fetchIPInfoWithClient (.ok (status, rawBody)) unmarshal = .ok info) ↔
      (status = 200 ∧ (strTrim (limitBody rawBody)).data.head? = some '\x7b' ∧
        ∃ d, unmarshal (limitBody rawBody) = .ok d ∧ d.code = 200 ∧
          d.ipapi.country ≠ "") := by
  unfold fetchIPInfoWithClient
  by_cases hst : status = 200
  · subst hst
    simp only [ne_eq, not_true_eq_false, if_false, true_and, if_neg]
    by_cases hhd : (strTrim (limitBody rawBody)).data.head? = some '\x7b'
    · simp only [hhd, not_true_eq_false, if_false, true_and]
      cases hun : unmarshal (limitBody rawBody) with
      | error jErr => simp [hun]
      | ok d =>
        by_cases hcode : d.code = 200
        · by_cases hcty : d.ipapi.country = ""
          · simp [hun, hcode, hcty]
          · simp [hun, hcode, hcty]
        · simp [hun, hcode]
    · simp [hhd]
  · simp [hst]

theorem fetchIPInfo_fields (status : Nat) (rawBody : String)
    (unmarshal : String → Except String IPAPIResp) :
    ∀ d info, unmarshal (limitBody rawBody) = .ok d →
      fetchIPInfoWithClient (.ok (status, rawBody)) unmarshal = .ok info →
      (info.isp = if d.ipapi.company.name ≠ "" then strTrim d.ipapi.company.name
                  else if d.ipapi.asn.name ≠ "" then strTrim d.ipapi.asn.name else "") ∧
      (info.ipType = if d.ipapi.asn.type ≠ "" then strTrim d.ipapi.asn.type
                     else if d.ipapi.company.type ≠ "" then strTrim d.ipapi.company.type else "") ∧
      info.country = strTrim d.ipapi.country := by
  intro d info hun hok
  unfold fetchIPInfoWithClient at hok
  dsimp only at hok
  rw [hun] at hok
  dsimp only at hok
  repeat' split at hok
  all_goals first
    | (injection hok
       rename_i hinfo
       subst hinfo
       refine ⟨?_, ?_, rfl⟩ <;> simp_all)
    | cases hok

/-- Claim C9, counterexample: an intel response with HTTP status 407 fails
with error text `ipinfo status=407`, which the classifier maps to `auth`
(the text contains `407`), not to `ipinfo`. -/
theorem C9_counterexample :
    fetchIPInfoWithClient (.ok (407, "\x7b\x7d")) (fun _ => .error "x") =
      .error ⟨"ipinfo status=407", false, false⟩ ∧
    classifyErr ⟨"ipinfo status=407", false, false⟩ = "auth" ∧
    ("auth" : String) ≠ "ipinfo" :=
  ⟨rfl, rfl, by decide⟩

/-- Claim C9 (amended): the IP-intel client succeeds iff the HTTP status is
200, the body (truncated to 32 KiB) starts with `\x7b` after trimming
whitespace, it unmarshals, the JSON `code` equals 200 and `country` is
non-empty; on success `isp` is the trimmed `company.name` if non-empty else
the trimmed `asn.name`, and `ip_type` is the trimmed `asn.type` if
non-empty else the trimmed `company.type`. A failed probe carries an
`ipinfo`-tagged error whose classifier kind is `ipinfo` for the not-JSON,
parse-failed, missing-country, bad-status and bad-code messages — except
when the rendered status or code text matches an earlier classifier rule,
as status 407 does (kind `auth`, see the counterexample). -/
theorem C9_ipinfo_client (status : Nat) (rawBody : String)
    (unmarshal : String → Except String IPAPIResp) :
    ((∃ info, fetchIPInfoWithClient (.ok (status, rawBody)) unmarshal = .ok info) ↔
      (status = 200 ∧ (strTrim (limitBody rawBody)).data.head? = some '\x7b' ∧
        ∃ d, unmarshal (limitBody rawBody) = .ok d ∧ d.code = 200 ∧
          d.ipapi.country ≠ "")) ∧
    (∀ d info, unmarshal (limitBody rawBody) = .ok d →
      fetchIPInfoWithClient (.ok (status, rawBody)) unmarshal = .ok info →
      (info.isp = if d.ipapi.company.name ≠ "" then strTrim d.ipapi.company.name
                  else if d.ipapi.asn.name ≠ "" then strTrim d.ipapi.asn.name else "") ∧
      (info.ipType = if d.ipapi.asn.type ≠ "" then strTrim d.ipapi.asn.type
                     else if d.ipapi.company.type ≠ "" then strTrim d.ipapi.company.type else "") ∧
      info.country = strTrim d.ipapi.country) ∧
    classifyErr ⟨"ipinfo invalid response: not JSON", false, false⟩ = "ipinfo" ∧
    classifyErr ⟨"ipinfo json parse failed: unexpected end of JSON input", false, false⟩ = "ipinfo" ∧
    classifyErr ⟨"ipinfo invalid response: missing country", false, false⟩ = "ipinfo" ∧
    classifyErr ⟨"ipinfo status=403", false, false⟩ = "ipinfo" ∧
    classifyErr ⟨"ipinfo api error: code=500", false, false⟩ = "ipinfo" :=
  ⟨fetchIPInfo_ok_iff status rawBody unmarshal,
   fetchIPInfo_fields status rawBody unmarshal, rfl, rfl, rfl, rfl, rfl⟩

/-- Witness for C9_ipinfo_client on scenario S1's intel payload. -/
theorem C9_ipinfo_client_witness :
    (∃ info, fetchIPInfoWithClient (.ok (200, "\x7b\x7d")) cUnmarshalOK = .ok info) ∧
    (⟨"ExampleCorp", "isp", "US"⟩ : IPInfo).country = strTrim cRespOK.ipapi.country :=
  ⟨(C9_ipinfo_client 200 "\x7b\x7d" cUnmarshalOK).1.mpr
      ⟨rfl, by decide, cRespOK, rfl, rfl, by decide⟩,
   ((C9_ipinfo_client 200 "\x7b\x7d" cUnmarshalOK).2.1 cRespOK ⟨"ExampleCorp", "isp", "US"⟩
      rfl rfl).2.2⟩

/-- Helper: the credential loop adds exactly one success when it reports a hit. -/
theorem runAuthLoop_succ_len (probe : String → Auth → ProbeRes) (tp : String) :
    ∀ (auths : List Auth) (st : WorkerSt),
      ((runAuthLoop probe tp auths st).1).successes.length =
        st.successes.length + (if (runAuthLoop probe tp auths st).2.1 then 1 else 0) := by
  intro auths
  induction auths with
  | nil => intro st; simp [runAuthLoop]
  | cons a rest ih =>
    intro st
    unfold runAuthLoop
    cases hp : probe tp a with
    | ok info => simp
    | fail e =>
      by_cases hf : fatalKind (classifyErr e) = true
      · simp [hf]
      · simp only [hf, if_false, Bool.false_eq_true]
        exact ih _

theorem runAuthLoop_trace (probe : String → Auth → ProbeRes) (tp : String) :
    ∀ (auths : List Auth) (st : WorkerSt),
      ∃ new, ((runAuthLoop probe tp auths st).1).trace = st.trace ++ new ∧
        ((runAuthLoop probe tp auths st).2.2 = false →
          ∀ y ∈ new, isFatalAttempt probe y = false) ∧
        ((runAuthLoop probe tp auths st).2.2 = true →
          ∃ pre x, new = pre ++ [x] ∧ (∀ y ∈ pre, isFatalAttempt probe y = false) ∧
            isFatalAttempt probe x = true) := by
  intro auths
  induction auths with
  | nil =>
    intro st
    refine ⟨[], by simp [runAuthLoop], ?_, ?_⟩
    · intro _ y hy; cases hy
    · intro h; cases h
  | cons a rest ih =>
    intro st
    unfold runAuthLoop
    cases hp : probe tp a with
    | ok info =>
      refine ⟨[(tp, a)], by simp, ?_, ?_⟩
      · intro _ y hy
        rcases List.mem_singleton.mp hy with rfl
        simp [isFatalAttempt, hp]
      · intro h; cases h
    | fail e =>
      by_cases hf : fatalKind (classifyErr e) = true
      · refine ⟨[(tp, a)], by simp [hf], ?_, ?_⟩
        · intro h
          simp [hf] at h
        · intro _
          refine ⟨[], (tp, a), by simp, by simp, ?_⟩
          simp [isFatalAttempt, hp, hf]
      · simp only [hf, if_false, Bool.false_eq_true]
        obtain ⟨new, htr, hfalse, htrue⟩ :=
          ih { st with trace := st.trace ++ [(tp, a)],
                       reasons := st.reasons ++ [classifyErr e], lastErr := some e }
        refine ⟨(tp, a) :: new, ?_, ?_, ?_⟩
        · simpa using htr
        · intro h y hy
          rcases List.mem_cons.mp hy with rfl | hy2
          · simp [isFatalAttempt, hp, hf]
          · exact hfalse h y hy2
        · intro h
          obtain ⟨pre, x, hnew, hpre, hx⟩ := htrue h
          refine ⟨(tp, a) :: pre, x, by simp [hnew], ?_, hx⟩
          intro y hy
          rcases List.mem_cons.mp hy with rfl | hy2
          · simp [isFatalAttempt, hp, hf]
          · exact hpre y hy2

theorem runProtoLoop_unreach (probe : String → Auth → ProbeRes) (auths : List Auth)
    (mode : String) (ts : List String) (st : WorkerSt) :
    runProtoLoop probe auths mode ts true st = st := by
  cases ts <;> simp [runProtoLoop]


theorem goodTrace_of_noFatal {probe : String → Auth → ProbeRes}
    {l : List (String × Auth)} (h : noFatal probe l) : goodTrace probe l := by
  intro i hi
  rw [List.get_eq_getElem]
  exact h _ (List.getElem_mem _)

theorem goodTrace_append {probe : String → Auth → ProbeRes}
    {l1 l2 : List (String × Auth)} (h1 : noFatal probe l1) (h2 : goodTrace probe l2) :
    goodTrace probe (l1 ++ l2) := by
  intro i hi
  rw [List.get_eq_getElem]
  rw [List.length_append] at hi
  by_cases hlt : i < l1.length
  · rw [List.getElem_append_left hlt]
    exact h1 _ (List.getElem_mem _)
  · have hge : l1.length ≤ i := by omega
    rw [List.getElem_append_right hge]
    have hi2 : (i - l1.length) + 1 < l2.length := by omega
    have := h2 (i - l1.length) hi2
    rw [List.get_eq_getElem] at this
    exact this

theorem goodTrace_concat_last {probe : String → Auth → ProbeRes}
    {pre : List (String × Auth)} {x : String × Auth} (h : noFatal probe pre) :
    goodTrace probe (pre ++ [x]) := by
  apply goodTrace_append h
  intro i hi
  simp at hi

theorem runProtoLoop_trace (probe : String → Auth → ProbeRes) (auths : List Auth)
    (mode : String) :
    ∀ (ts : List String) (unreach : Bool) (st : WorkerSt),
      ∃ new, (runProtoLoop probe auths mode ts unreach st).trace = st.trace ++ new ∧
        goodTrace probe new := by
  intro ts
  induction ts with
  | nil =>
    intro unreach st
    refine ⟨[], by simp [runProtoLoop], ?_⟩
    intro i hi; simp at hi
  | cons tp rest ih =>
    intro unreach st
    by_cases hu : unreach = true
    · subst hu
      refine ⟨[], by simp [runProtoLoop], ?_⟩
      intro i hi; simp at hi
    · have hu2 : unreach = false := by
        cases unreach
        · rfl
        · exact absurd rfl hu
      subst hu2
      obtain ⟨new1, htr1, hfalse1, htrue1⟩ := runAuthLoop_trace probe tp auths st
      obtain ⟨⟨st1, okT, unr⟩, hEq⟩ :
          ∃ r, runAuthLoop probe tp auths st = r := ⟨_, rfl⟩
      rw [hEq] at htr1 hfalse1 htrue1
      dsimp only at htr1 hfalse1 htrue1
      have hgood1 : goodTrace probe new1 := by
        cases unr with
        | false =>
          exact goodTrace_of_noFatal (hfalse1 rfl)
        | true =>
          obtain ⟨pre, x, hnew, hpre, hx⟩ := htrue1 rfl
          rw [hnew]
          exact goodTrace_concat_last hpre
      unfold runProtoLoop
      simp only [Bool.false_eq_true, if_false]
      rw [hEq]
      dsimp only
      by_cases hbrk : (mode == "auto" && okT) = true
      · rw [if_pos hbrk]
        exact ⟨new1, htr1, hgood1⟩
      · rw [if_neg hbrk]
        cases unr with
        | true =>
          rw [runProtoLoop_unreach]
          exact ⟨new1, htr1, hgood1⟩
        | false =>
          obtain ⟨new2, htr2, hgood2⟩ := ih false st1
          refine ⟨new1 ++ new2, ?_, ?_⟩
          · rw [htr2, htr1, List.append_assoc]
          · exact goodTrace_append (hfalse1 rfl) hgood2


theorem goodTrace_decomp {probe : String → Auth → ProbeRes}
    {l pre post : List (String × Auth)} {x : String × Auth}
    (hg : goodTrace probe l) (hl : l = pre ++ x :: post)
    (hx : isFatalAttempt probe x = true) : post = [] := by
  by_contra hne
  have hlen : 0 < post.length := List.length_pos.mpr hne
  have hi : pre.length + 1 < l.length := by
    rw [hl, List.length_append]
    simp only [List.length_cons]
    omega
  have := hg pre.length hi
  rw [List.get_eq_getElem] at this
  have hget : l.get ⟨pre.length, by omega⟩ = x := by
    rw [List.get_eq_getElem]
    subst hl
    rw [List.getElem_append_right (Nat.le_refl _)]
    simp
  rw [List.get_eq_getElem] at hget
  rw [hget] at this
  rw [hx] at this
  cases this

theorem runProtoLoop_succ_le (probe : String → Auth → ProbeRes) (auths : List Auth)
    (mode : String) :
    ∀ (ts : List String) (unreach : Bool) (st : WorkerSt),
      (runProtoLoop probe auths mode ts unreach st).successes.length ≤
        st.successes.length + ts.length := by
  intro ts
  induction ts with
  | nil => intro unreach st; simp [runProtoLoop]
  | cons tp rest ih =>
    intro unreach st
    unfold runProtoLoop
    cases unreach with
    | true => simp
    | false =>
      simp only [Bool.false_eq_true, if_false]
      obtain ⟨⟨st1, okT, unr⟩, hEq⟩ :
          ∃ r, runAuthLoop probe tp auths st = r := ⟨_, rfl⟩
      have hlen := runAuthLoop_succ_len probe tp auths st
      rw [hEq] at hlen
      dsimp only at hlen
      rw [hEq]
      dsimp only
      have hlen2 : st1.successes.length ≤ st.successes.length + 1 := by
        rw [hlen]; split <;> omega
      by_cases hbrk : (mode == "auto" && okT) = true
      · rw [if_pos hbrk]
        simp only [List.length_cons]
        omega
      · rw [if_neg hbrk]
        have := ih unr st1
        simp only [List.length_cons]
        omega

theorem runProtoLoop_succ_auto (probe : String → Auth → ProbeRes) (auths : List Auth)
    {mode : String} (hm : (mode == "auto") = true) :
    ∀ (ts : List String) (unreach : Bool) (st : WorkerSt),
      (runProtoLoop probe auths mode ts unreach st).successes.length ≤
        st.successes.length + 1 := by
  intro ts
  induction ts with
  | nil => intro unreach st; simp [runProtoLoop]
  | cons tp rest ih =>
    intro unreach st
    unfold runProtoLoop
    cases unreach with
    | true => simp
    | false =>
      simp only [Bool.false_eq_true, if_false]
      obtain ⟨⟨st1, okT, unr⟩, hEq⟩ :
          ∃ r, runAuthLoop probe tp auths st = r := ⟨_, rfl⟩
      have hlen := runAuthLoop_succ_len probe tp auths st
      rw [hEq] at hlen
      dsimp only at hlen
      rw [hEq]
      dsimp only
      cases okT with
      | true =>
        have hbrk : (mode == "auto" && true) = true := by simp [hm]
        rw [if_pos hbrk]
        rw [hlen]
        simp
      | false =>
        have hbrk : (mode == "auto" && false) = true → False := by simp
        rw [if_neg hbrk]
        have := ih unr st1
        rw [hlen] at this
        simpa using this

theorem runAuthLoop_reasons (probe : String → Auth → ProbeRes) (tp : String) :
    ∀ (auths : List Auth) (st : WorkerSt) (r : String),
      r ∈ ((runAuthLoop probe tp auths st).1).reasons →
      r ∈ st.reasons ∨ ∃ e, r = classifyErr e := by
  intro auths
  induction auths with
  | nil => intro st r hr; left; simpa [runAuthLoop] using hr
  | cons a rest ih =>
    intro st r hr
    unfold runAuthLoop at hr
    cases hp : probe tp a with
    | ok info =>
      rw [hp] at hr
      left; simpa using hr
    | fail e =>
      rw [hp] at hr
      dsimp only at hr
      by_cases hf : fatalKind (classifyErr e) = true
      · rw [if_pos hf] at hr
        dsimp only at hr
        rcases List.mem_append.mp hr with h1 | h2
        · exact Or.inl h1
        · exact Or.inr ⟨e, (List.mem_singleton.mp h2)⟩
      · rw [if_neg hf] at hr
        rcases ih _ r hr with h1 | h2
        · dsimp only at h1
          rcases List.mem_append.mp h1 with h3 | h4
          · exact Or.inl h3
          · exact Or.inr ⟨e, (List.mem_singleton.mp h4)⟩
        · exact Or.inr h2

theorem runProtoLoop_reasons (probe : String → Auth → ProbeRes) (auths : List Auth)
    (mode : String) :
    ∀ (ts : List String) (unreach : Bool) (st : WorkerSt) (r : String),
      r ∈ (runProtoLoop probe auths mode ts unreach st).reasons →
      r ∈ st.reasons ∨ ∃ e, r = classifyErr e := by
  intro ts
  induction ts with
  | nil => intro unreach st r hr; left; simpa [runProtoLoop] using hr
  | cons tp rest ih =>
    intro unreach st r hr
    unfold runProtoLoop at hr
    cases unreach with
    | true =>
      simp only [eq_self_iff_true, if_true] at hr
      exact Or.inl hr
    | false =>
      simp only [Bool.false_eq_true, if_false] at hr
      obtain ⟨⟨st1, okT, unr⟩, hEq⟩ :
          ∃ r0, runAuthLoop probe tp auths st = r0 := ⟨_, rfl⟩
      rw [hEq] at hr
      dsimp only at hr
      by_cases hbrk : (mode == "auto" && okT) = true
      · rw [if_pos hbrk] at hr
        exact runAuthLoop_reasons probe tp auths st r (by rw [hEq]; exact hr)
      · rw [if_neg hbrk] at hr
        rcases ih unr st1 r hr with h1 | h2
        · exact runAuthLoop_reasons probe tp auths st r (by rw [hEq]; exact h1)
        · exact Or.inr h2


set_option maxHeartbeats 1600000 in
theorem classifyErr_mem (e : GoErr) :
    classifyErr e ∈ ["https_to_http", "auth", "connect_fail", "non204", "timeout",
      "tls", "dns", "refused", "unreachable", "reset", "dial", "ipinfo", "eof",
      "other"] := by
  unfold classifyErr
  dsimp only
  repeat' split
  all_goals decide

theorem classifyErr_clean (e : GoErr) :
    strTrim (classifyErr e) = classifyErr e ∧ classifyErr e ≠ "" := by
  have h := classifyErr_mem e
  simp only [List.mem_cons, List.not_mem_nil, or_false] at h
  rcases h with h | h | h | h | h | h | h | h | h | h | h | h | h | h <;>
    rw [h] <;> exact ⟨by decide, by decide⟩

theorem runJob_reasons (probe : String → Auth → ProbeRes) (defaults : List Auth)
    (mode : String) (job : Job) :
    ∀ r ∈ (runJob probe defaults mode job).reasons, ∃ e, r = classifyErr e := by
  intro r hr
  unfold runJob at hr
  rcases runProtoLoop_reasons probe (buildAuthList job.inlineAuth defaults)
      (strToLower mode) (workerTypes (strToLower mode) job.schemeHint job.port)
      false ⟨[], [], none, []⟩ r hr with h1 | h2
  · cases h1
  · exact h2

/-- Claim C3: (a) cross-protocol short-circuit — in the trace of attempted
(protocol, credential) pairs, an attempt that fails with kind `reset`,
`unreachable` or `refused` is always the last attempt, so no further
credential and no further protocol is tried; (b) when the endpoint has no
success and such a kind is the highest-priority one observed, it is the
endpoint's primary reason. -/
theorem C3_short_circuit (probe : String → Auth → ProbeRes) (defaults : List Auth)
    (mode : String) (job : Job) :
    (∀ pre x post, (runJob probe defaults mode job).trace = pre ++ x :: post →
        isFatalAttempt probe x = true → post = []) ∧
    (∀ k, (runJob probe defaults mode job).successes = [] →
        fatalKind k = true →
        k ∈ (runJob probe defaults mode job).reasons →
        (∀ r ∈ (runJob probe defaults mode job).reasons,
            priorityList.indexOf k ≤ priorityList.indexOf r) →
        outcomeWhy (runJob probe defaults mode job) = k) := by
  constructor
  · intro pre x post htr hx
    obtain ⟨new, hnew, hgood⟩ := runProtoLoop_trace probe
      (buildAuthList job.inlineAuth defaults) (strToLower mode)
      (workerTypes (strToLower mode) job.schemeHint job.port) false ⟨[], [], none, []⟩
    have hrj : (runJob probe defaults mode job).trace = new := by
      unfold runJob
      rw [hnew]
      rfl
    exact goodTrace_decomp hgood (hrj.symm.trans htr) hx
  · intro k hsucc hk hkmem hmin
    have hwhy : outcomeWhy (runJob probe defaults mode job) =
        choosePrimaryReason (runJob probe defaults mode job).reasons
          (runJob probe defaults mode job).lastErr := by
      unfold outcomeWhy
      rw [hsucc]
      rfl
    rw [hwhy]
    apply choosePrimary_min ?_ ?_ hkmem hmin
    · intro r hr
      obtain ⟨e, rfl⟩ := runJob_reasons probe defaults mode job r hr
      exact classifyErr_clean e
    · unfold fatalKind at hk
      simp only [Bool.or_eq_true, beq_iff_eq] at hk
      rcases hk with (h | h) | h <;> subst h <;> decide

/-- Witness for C3_short_circuit at spec scenario S4: every attempt refused
in mode all, so the endpoint short-circuits after one attempt and its
primary reason is refused. -/
theorem C3_short_circuit_witness :
    outcomeWhy (runJob cProbeRefused [] "all" cJobS4) = "refused" :=
  (C3_short_circuit cProbeRefused [] "all" cJobS4).2 "refused"
    (by decide) (by decide) (by decide) (by decide)

/-- Helper: ignored lines leave the counters untouched. -/
theorem processLine_ignored (L : String → Except String Job) (K : Job → Option String)
    (P : Job → String → Auth → ProbeRes) (defaults : List Auth) (mode : String)
    (c : Counters) (line : String)
    (h : strTrim line = "" ∨ strStartsWith (strTrim line) "#" = true) :
    processLine L K P defaults mode c line = c := by
  unfold processLine
  dsimp only
  rcases h with h | h
  · rw [h]
    simp
  · rw [h]
    simp

theorem processLine_done (L : String → Except String Job) (K : Job → Option String)
    (P : Job → String → Auth → ProbeRes) (defaults : List Auth) (mode : String)
    (c : Counters) (line : String) (hc : c.done = c.okIP + c.fail + c.skip) :
    (processLine L K P defaults mode c line).done =
      (processLine L K P defaults mode c line).okIP +
      (processLine L K P defaults mode c line).fail +
      (processLine L K P defaults mode c line).skip := by
  unfold processLine processOutcome
  dsimp only
  repeat' split
  all_goals try dsimp only
  all_goals omega

/-- Claim C6: at termination done = ok_endpoints + fail + skip — each worker
outcome increments done exactly once (fail or okIP alongside), each bad line
and each CDN skip increments both done and skip exactly once, and blank or
comment lines change no counter at all (dropping such a line anywhere in the
input leaves every counter unchanged). -/
theorem C6_counters (L : String → Except String Job) (K : Job → Option String)
    (P : Job → String → Auth → ProbeRes) (defaults : List Auth) (mode : String)
    (lines : List String) :
    ((runAll L K P defaults mode lines).done =
      (runAll L K P defaults mode lines).okIP +
      (runAll L K P defaults mode lines).fail +
      (runAll L K P defaults mode lines).skip) ∧
    (∀ pre line post, (strTrim line = "" ∨ strStartsWith (strTrim line) "#" = true) →
      runAll L K P defaults mode (pre ++ line :: post) =
        runAll L K P defaults mode (pre ++ post)) := by
  constructor
  · have key : ∀ (ls : List String) (c : Counters),
        c.done = c.okIP + c.fail + c.skip →
        (ls.foldl (processLine L K P defaults mode) c).done =
          (ls.foldl (processLine L K P defaults mode) c).okIP +
          (ls.foldl (processLine L K P defaults mode) c).fail +
          (ls.foldl (processLine L K P defaults mode) c).skip := by
      intro ls
      induction ls with
      | nil => intro c hc; simpa using hc
      | cons l rest ih =>
        intro c hc
        simp only [List.foldl_cons]
        exact ih _ (processLine_done L K P defaults mode c l hc)
    exact key lines ⟨0, 0, 0, 0, 0⟩ rfl
  · intro pre line post h
    unfold runAll
    rw [List.foldl_append, List.foldl_append, List.foldl_cons,
        processLine_ignored L K P defaults mode _ line h]


theorem guessProxyOrderWithScheme_length (port scheme : String) :
    (guessProxyOrderWithScheme port scheme).length = 3 := by
  unfold guessProxyOrderWithScheme
  split
  any_goals rfl
  unfold guessProxyOrder
  split <;> rfl

theorem workerTypes_len_le (m hint port : String) :
    (workerTypes m hint port).length ≤ 3 := by
  unfold workerTypes
  split
  all_goals first
    | decide
    | (rw [guessProxyOrderWithScheme_length]; try omega)

theorem runJob_succ_le_three (probe : String → Auth → ProbeRes)
    (defaults : List Auth) (mode : String) (job : Job) :
    (runJob probe defaults mode job).successes.length ≤ 3 := by
  unfold runJob
  dsimp only
  have h := runProtoLoop_succ_le probe (buildAuthList job.inlineAuth defaults)
    (strToLower mode) (workerTypes (strToLower mode) job.schemeHint job.port)
    false ⟨[], [], none, []⟩
  have h2 := workerTypes_len_le (strToLower mode) job.schemeHint job.port
  simp only [List.length_nil] at h
  omega

theorem runJob_succ_le_one (probe : String → Auth → ProbeRes)
    (defaults : List Auth) (mode : String) (job : Job)
    (hm : mode = "http" ∨ mode = "https" ∨ mode = "socks5" ∨ mode = "auto") :
    (runJob probe defaults mode job).successes.length ≤ 1 := by
  rcases hm with rfl | rfl | rfl | rfl
  · unfold runJob
    rw [(by decide : strToLower "http" = "http")]
    have h := runProtoLoop_succ_le probe (buildAuthList job.inlineAuth defaults)
      "http" (workerTypes "http" job.schemeHint job.port) false ⟨[], [], none, []⟩
    simpa [workerTypes] using h
  · unfold runJob
    rw [(by decide : strToLower "https" = "https")]
    have h := runProtoLoop_succ_le probe (buildAuthList job.inlineAuth defaults)
      "https" (workerTypes "https" job.schemeHint job.port) false ⟨[], [], none, []⟩
    simpa [workerTypes] using h
  · unfold runJob
    rw [(by decide : strToLower "socks5" = "socks5")]
    have h := runProtoLoop_succ_le probe (buildAuthList job.inlineAuth defaults)
      "socks5" (workerTypes "socks5" job.schemeHint job.port) false ⟨[], [], none, []⟩
    simpa [workerTypes] using h
  · unfold runJob
    rw [(by decide : strToLower "auto" = "auto")]
    have h := @runProtoLoop_succ_auto probe (buildAuthList job.inlineAuth defaults)
      "auto" (by decide) (workerTypes "auto" job.schemeHint job.port) false ⟨[], [], none, []⟩
    simpa using h

theorem processOutcome_ge (c : Counters) (st : WorkerSt)
    (h : c.okIP ≤ c.okLine) :
    (processOutcome c st).okIP ≤ (processOutcome c st).okLine := by
  unfold processOutcome
  split
  · simpa using h
  · rename_i hne
    have hpos : 0 < st.successes.length := by
      cases hs : st.successes with
      | nil => rw [hs] at hne; simp at hne
      | cons a t => simp [hs]
    dsimp only
    omega

theorem processOutcome_eqstep (c : Counters) (st : WorkerSt)
    (hst : st.successes.length ≤ 1) (h : c.okLine = c.okIP) :
    (processOutcome c st).okLine = (processOutcome c st).okIP := by
  unfold processOutcome
  split
  · simpa using h
  · rename_i hne
    have hpos : 0 < st.successes.length := by
      cases hs : st.successes with
      | nil => rw [hs] at hne; simp at hne
      | cons a t => simp [hs]
    dsimp only
    omega

theorem processOutcome_bounded (c : Counters) (st : WorkerSt) (n : Nat)
    (hst : st.successes.length ≤ n)
    (h : c.okLine ≤ n * c.okIP) :
    (processOutcome c st).okLine ≤ n * (processOutcome c st).okIP := by
  unfold processOutcome
  split
  · simpa using h
  · dsimp only
    have : n * (c.okIP + 1) = n * c.okIP + n := by ring
    omega

theorem processLine_ge (L : String → Except String Job) (K : Job → Option String)
    (P : Job → String → Auth → ProbeRes) (defaults : List Auth) (mode : String)
    (c : Counters) (line : String) (h : c.okIP ≤ c.okLine) :
    (processLine L K P defaults mode c line).okIP ≤
      (processLine L K P defaults mode c line).okLine := by
  unfold processLine
  dsimp only
  repeat' split
  all_goals first
    | exact h
    | exact processOutcome_ge _ _ h

theorem processLine_eqmode (L : String → Except String Job) (K : Job → Option String)
    (P : Job → String → Auth → ProbeRes) (defaults : List Auth) (mode : String)
    (hm : mode = "http" ∨ mode = "https" ∨ mode = "socks5" ∨ mode = "auto")
    (c : Counters) (line : String) (h : c.okLine = c.okIP) :
    (processLine L K P defaults mode c line).okLine =
      (processLine L K P defaults mode c line).okIP := by
  unfold processLine
  dsimp only
  repeat' split
  all_goals first
    | exact h
    | exact processOutcome_eqstep _ _ (runJob_succ_le_one _ defaults mode _ hm) h

theorem processLine_le3 (L : String → Except String Job) (K : Job → Option String)
    (P : Job → String → Auth → ProbeRes) (defaults : List Auth) (mode : String)
    (c : Counters) (line : String) (h : c.okLine ≤ 3 * c.okIP) :
    (processLine L K P defaults mode c line).okLine ≤
      3 * (processLine L K P defaults mode c line).okIP := by
  unfold processLine
  dsimp only
  repeat' split
  all_goals first
    | exact h
    | exact processOutcome_bounded _ _ 3 (runJob_succ_le_three _ defaults mode _) h


/-- Claim C7: ok_lines is at least ok_endpoints in every mode; in the
single-protocol modes and in auto mode the two are equal (at most one
success per endpoint), and in all mode ok_lines is at most three times
ok_endpoints (at most one success per protocol per endpoint). -/
theorem C7_ok_lines (L : String → Except String Job) (K : Job → Option String)
    (P : Job → String → Auth → ProbeRes) (defaults : List Auth) (mode : String)
    (lines : List String) :
    ((runAll L K P defaults mode lines).okIP ≤
      (runAll L K P defaults mode lines).okLine) ∧
    (mode ∈ (["http", "https", "socks5", "auto"] : List String) →
      (runAll L K P defaults mode lines).okLine =
        (runAll L K P defaults mode lines).okIP) ∧
    (mode = "all" →
      (runAll L K P defaults mode lines).okLine ≤
        3 * (runAll L K P defaults mode lines).okIP) := by
  refine ⟨?_, ?_, ?_⟩
  · have key : ∀ (ls : List String) (c : Counters), c.okIP ≤ c.okLine →
        (ls.foldl (processLine L K P defaults mode) c).okIP ≤
          (ls.foldl (processLine L K P defaults mode) c).okLine := by
      intro ls
      induction ls with
      | nil => intro c hc; simpa using hc
      | cons l rest ih =>
        intro c hc
        simp only [List.foldl_cons]
        exact ih _ (processLine_ge L K P defaults mode c l hc)
    exact key lines ⟨0, 0, 0, 0, 0⟩ (by decide)
  · intro hmode
    simp only [List.mem_cons, List.not_mem_nil, or_false] at hmode
    have key : ∀ (ls : List String) (c : Counters), c.okLine = c.okIP →
        (ls.foldl (processLine L K P defaults mode) c).okLine =
          (ls.foldl (processLine L K P defaults mode) c).okIP := by
      intro ls
      induction ls with
      | nil => intro c hc; simpa using hc
      | cons l rest ih =>
        intro c hc
        simp only [List.foldl_cons]
        exact ih _ (processLine_eqmode L K P defaults mode hmode c l hc)
    exact key lines ⟨0, 0, 0, 0, 0⟩ rfl
  · intro _
    have key : ∀ (ls : List String) (c : Counters), c.okLine ≤ 3 * c.okIP →
        (ls.foldl (processLine L K P defaults mode) c).okLine ≤
          3 * (ls.foldl (processLine L K P defaults mode) c).okIP := by
      intro ls
      induction ls with
      | nil => intro c hc; simpa using hc
      | cons l rest ih =>
        intro c hc
        simp only [List.foldl_cons]
        exact ih _ (processLine_le3 L K P defaults mode c l hc)
    exact key lines ⟨0, 0, 0, 0, 0⟩ (by decide)

/-- Witness for C6_counters on a comment line plus a bad line. -/
theorem C6_counters_witness :
    ((runAll cLineToJobBad cCdnNone cProbeJobRefused [] "auto" ["# c", "x"]).done =
      (runAll cLineToJobBad cCdnNone cProbeJobRefused [] "auto" ["# c", "x"]).okIP +
      (runAll cLineToJobBad cCdnNone cProbeJobRefused [] "auto" ["# c", "x"]).fail +
      (runAll cLineToJobBad cCdnNone cProbeJobRefused [] "auto" ["# c", "x"]).skip) ∧
    runAll cLineToJobBad cCdnNone cProbeJobRefused [] "auto" (["x"] ++ "# c" :: []) =
      runAll cLineToJobBad cCdnNone cProbeJobRefused [] "auto" (["x"] ++ []) :=
  ⟨(C6_counters cLineToJobBad cCdnNone cProbeJobRefused [] "auto" ["# c", "x"]).1,
   (C6_counters cLineToJobBad cCdnNone cProbeJobRefused [] "auto" []).2
     ["x"] "# c" [] (Or.inr (by decide))⟩

/-- Witness for C7_ok_lines in auto mode on a refused endpoint. -/
theorem C7_ok_lines_witness :
    ("auto" ∈ (["http", "https", "socks5", "auto"] : List String)) ∧
    (runAll cLineToJobConst cCdnNone cProbeJobRefused [] "auto" ["1.2.3.4:80"]).okLine =
      (runAll cLineToJobConst cCdnNone cProbeJobRefused [] "auto" ["1.2.3.4:80"]).okIP :=
  ⟨by decide,
   (C7_ok_lines cLineToJobConst cCdnNone cProbeJobRefused [] "auto" ["1.2.3.4:80"]).2.1
     (by decide)⟩

end ProxyChecker

